import Mathlib

/-!
Verification of the PyGeodesy spherical-trigonometry core
(`pygeodesy/bases.py` and `pygeodesy/sphericalTrigonometry.py`).

Python floats are embedded as real numbers; `math.sin`, `math.cos`,
`math.sqrt`, `math.acos`, `math.asin`, `math.atan2` become the
corresponding `Real` functions (with `atan2` defined below following the
C/Python sign conventions).  Fallible Python code (raised exceptions)
is embedded with `Except Err`.  Helpers that live in repository modules
not present under `src/` (`utils`, `dms`, `vector3d`, `sphericalBase`)
are modelled from the specification and marked as such.
-/

open Real

namespace PyGeodesy

/-- Error values for the exceptions raised by the embedded code.  The
repository tags its `ValueError`s with a word inside the message string
('parallel', 'infinite', 'ambiguous', 'too few points', 'zero area',
'non-convex'); we model the tag as a constructor. -/
inductive Err where
  | typeMismatch  : Err
  | tooFewPoints  : Nat → Err
  | zeroArea      : Err
  | parallel      : Err
  | infiniteInter : Err
  | ambiguous     : Err
  | attributeError : Err
  | zeroDivision  : Err
  | mathDomain    : Err
  deriving DecidableEq

/-- Modelled from the spec: `utils.EPS` is "machine epsilon"
(`sys.float_info.epsilon` = 2^-52 for IEEE doubles). -/
noncomputable def EPS : ℝ := 1 / 2 ^ 52

/-- Modelled from the spec: `utils.EPS1 = 1 - EPS`. -/
noncomputable def EPS1 : ℝ := 1 - EPS

/-- `utils.PI2`, two pi. -/
noncomputable def PI2 : ℝ := 2 * π

/-- `utils.PI_2`, half pi. -/
noncomputable def PI_2 : ℝ := π / 2

/-- `math.radians`: degrees to radians. -/
noncomputable def radians (d : ℝ) : ℝ := d * π / 180

/-- `math.degrees`: radians to degrees. -/
noncomputable def degrees (r : ℝ) : ℝ := r * 180 / π

/-- Modelled from the spec: `utils.wrap90` wraps degrees of latitude
into the half-open interval (-90, 90]. -/
noncomputable def wrap90 (d : ℝ) : ℝ := d - 180 * ⌈(d - 90) / 180⌉

/-- Modelled from the spec: `utils.wrap180` wraps degrees of longitude
into the half-open interval (-180, 180]. -/
noncomputable def wrap180 (d : ℝ) : ℝ := d - 360 * ⌈(d - 180) / 360⌉

/-- Modelled from the spec: `utils.wrapPI` wraps radians into the
half-open interval (-pi, pi]. -/
noncomputable def wrapPI (r : ℝ) : ℝ := r - PI2 * ⌈(r - π) / PI2⌉

/-- `utils.degrees90`: radians to degrees, wrapped to (-90, 90]. -/
noncomputable def degrees90 (r : ℝ) : ℝ := wrap90 (degrees r)

/-- `utils.degrees180`: radians to degrees, wrapped to (-180, 180]. -/
noncomputable def degrees180 (r : ℝ) : ℝ := wrap180 (degrees r)

/-- Modelled from the spec: `utils.hsin`, the haversine
`hav(x) = sin^2(x/2)`. -/
noncomputable def hsin (x : ℝ) : ℝ := sin (x / 2) ^ 2

/-- Modelled from the spec: `utils.favg(v1, v2, f)`, the weighted
average `v1 + f * (v2 - v1)`. -/
noncomputable def favg (v1 v2 f : ℝ) : ℝ := v1 + f * (v2 - v1)

/-- Modelled from the spec: `utils.fsum` is an order-independent,
precision-preserving (exact) float summation; over the reals it is the
plain sum of the list. -/
noncomputable def fsum (xs : List ℝ) : ℝ := xs.sum

/-- `math.hypot`. -/
noncomputable def hypot (x y : ℝ) : ℝ := Real.sqrt (x ^ 2 + y ^ 2)

/-- `math.atan2 y x` with the C/Python conventions:
result in (-pi, pi], `atan2 0 0 = 0`, sign of `y` picks the half-plane. -/
noncomputable def atan2 (y x : ℝ) : ℝ :=
  if 0 < x then arctan (y / x)
  else if x < 0 then
    (if 0 ≤ y then arctan (y / x) + π else arctan (y / x) - π)
  else if 0 < y then π / 2
  else if y < 0 then -(π / 2)
  else 0

/-- `math.sqrt` raises `ValueError: math domain error` on negative
arguments; embedded as `Except`. -/
noncomputable def sqrtE (x : ℝ) : Except Err ℝ :=
  if x < 0 then .error .mathDomain else .ok (Real.sqrt x)

/-- A spherical `LatLon` point, viewed as a value: latitude and
longitude in degrees and height in meter
(`bases.LatLonHeightBase.__init__`).  The lazily cached derived fields
(`_ab`, `_v3d`) are modelled separately by `LatLonC`; by the cache
invariant (claim C4) a cached read always yields the values computed
from the current coordinates, so the algorithm layer reads
`radians lat` / `radians lon` directly. -/
structure LatLon where
  lat : ℝ
  lon : ℝ
  height : ℝ

/-- `bases.LatLonHeightBase.equals` with the default `eps=None`:
exact equality of latitude and longitude (height is excluded). -/
def LatLon.equalsLL (p q : LatLon) : Prop := p.lat = q.lat ∧ p.lon = q.lon

/-- Placeholder point used only as the (never-read) default of
`List.headD`/`List.getLastD` below; the source indexes `points[0]` and
`points[-1]` only under the guard `n > 1`. -/
def dLL : LatLon := ⟨0, 0, 0⟩

open Classical in
/-- `bases.LatLonHeightBase.points(points, closed)`: counts the
sequence (`utils.len2`), drops an exact trailing duplicate of the
first point when `closed`, and raises `ValueError('too few points')`
when the resulting count is below 3 (closed) resp. 1 (open).  The
per-element `others` type check always succeeds in this embedding
(all elements share the `LatLon` type). -/
noncomputable def points_ (closed : Bool) (points : List LatLon) :
    Except Err (ℕ × List LatLon) :=
  let n := points.length
  let t : ℕ × List LatLon :=
    if closed then
      if 1 < n then
        if (points.headD dLL).equalsLL (points.getLastD dLL) then
          (n - 1, points.dropLast)
        else (n, points)
      else (n, points)
    else (n, points)
  if t.1 < (if closed then 3 else 1) then .error (.tooFewPoints t.1)
  else .ok t

/-- The flat x-y image of a point used by `isclockwise`
(`_2xy`): `(wrap180 lon, wrap90 lat)`. -/
noncomputable def xy2 (p : LatLon) : ℝ × ℝ := (wrap180 p.lon, wrap90 p.lat)

/-- The list of pseudo-areas `(x2 - x1) * (y2 + y1)` of the segments of
a polygon, starting from the given previous vertex (the `for` loop of
`bases.LatLonHeightBase.isclockwise`, which seeds `x1, y1` with the
last vertex). -/
noncomputable def pseudoAreas : ℝ × ℝ → List LatLon → List ℝ
  | _, [] => []
  | (x1, y1), p :: ps =>
      (((xy2 p).1 - x1) * ((xy2 p).2 + y1)) :: pseudoAreas (xy2 p) ps

open Classical in
/-- `bases.LatLonHeightBase.isclockwise` (also the module-level
`bases.isclockwise`): validates the closed polygon, accumulates the
signed pseudo-area in wrapped flat coordinates and decides the winding
by its sign; a zero (or empty) sum raises `ValueError('zero area')`. -/
noncomputable def isclockwise (points : List LatLon) : Except Err Bool := do
  let (_, pts) ← points_ true points
  let paL := pseudoAreas (xy2 (pts.getLastD dLL)) pts
  if paL = [] then throw .zeroArea
  else
    let pa := fsum paL
    if 0 < pa then pure true
    else if pa < 0 then pure false
    else throw .zeroArea

/-- The haversine value
`h = hav(a2 - a1) + cos(a1) * cos(a2) * hav(b21)` computed by
`sphericalTrigonometry._haversine3`. -/
noncomputable def havOf (a2 a1 b21 : ℝ) : ℝ :=
  hsin (a2 - a1) + cos a1 * cos a2 * hsin b21

/-- The angular distance computed by `sphericalTrigonometry._haversine3`
from the haversine value `h`: `atan2(sqrt(h), sqrt(1-h)) * 2` inside a
`try`, falling back to `0` (when `h < 0.5`) or `pi` on a math-domain
`ValueError` from either square root. -/
noncomputable def hav3r (h : ℝ) : ℝ :=
  match (do
      let s1 ← sqrtE h
      let s2 ← sqrtE (1 - h)
      pure (atan2 s1 s2 * 2) : Except Err ℝ) with
  | .ok r => r
  | .error _ => if h < 1 / 2 then 0 else π

/-- `sphericalTrigonometry._haversine3(a2, a1, b21)`: the 3-tuple
`(angle, cos(a2), cos(a1))`. -/
noncomputable def haversine3 (a2 a1 b21 : ℝ) : ℝ × ℝ × ℝ :=
  (hav3r (havOf a2 a1 b21), cos a2, cos a1)

/-- `sphericalTrigonometry.LatLon.distanceTo(other, radius)`:
haversine angular distance times the radius. -/
noncomputable def distanceTo (p q : LatLon) (radius : ℝ) : ℝ :=
  let a1 := radians p.lat
  let b1 := radians p.lon
  let a2 := radians q.lat
  let b2 := radians q.lon
  (haversine3 a2 a1 (b2 - b1)).1 * radius

/-- `sphericalTrigonometry._destination2(a, b, r, t, h)`: the direct
geodetic problem on the sphere; returns `LatLon(degrees90(a2),
degrees180(b2), height=h)`. -/
noncomputable def destination2 (a b r t h : ℝ) : LatLon :=
  let ca := cos a; let cr := cos r; let ct := cos t
  let sa := sin a; let sr := sin r; let st := sin t
  let a2 := arcsin (ct * sr * ca + cr * sa)
  let b2 := b + atan2 (st * sr * ca) (cr - sa * sin a2)
  ⟨degrees90 a2, degrees180 b2, h⟩

open Classical in
/-- `sphericalTrigonometry.LatLon.intermediateTo(other, fraction)`:
short-circuits to this point's (resp. the other point's) coordinates
and height when the fraction is below `EPS` (resp. above `EPS1`);
otherwise interpolates on the great circle (or, for a separation at or
below `EPS`, averages the radian coordinates linearly), averages the
heights by the fraction, and returns a fresh point. -/
noncomputable def intermediateTo (p q : LatLon) (fraction : ℝ) : LatLon :=
  if fraction < EPS then ⟨p.lat, p.lon, p.height⟩
  else if EPS1 < fraction then ⟨q.lat, q.lon, q.height⟩
  else
    let a1 := radians p.lat; let b1 := radians p.lon
    let a2 := radians q.lat; let b2 := radians q.lon
    let r := (haversine3 a2 a1 (b2 - b1)).1
    let ca2 := cos a2; let ca1 := cos a1
    let ab : ℝ × ℝ :=
      if EPS < r then
        let cb1 := cos b1; let cb2 := cos b2
        let sb1 := sin b1; let sb2 := sin b2
        let sa1 := sin a1; let sa2 := sin a2
        let sr := sin r
        let A := sin ((1 - fraction) * r) / sr
        let B := sin (fraction * r) / sr
        let x := A * ca1 * cb1 + B * ca2 * cb2
        let y := A * ca1 * sb1 + B * ca2 * sb2
        let z := A * sa1 + B * sa2
        (atan2 z (hypot x y), atan2 y x)
      else
        (favg a1 a2 fraction, favg b1 b2 fraction)
    let h := favg p.height q.height fraction
    ⟨degrees90 ab.1, degrees180 ab.2, h⟩

/-- The pair `(t12, t21)` of initial bearings of the start-to-start
great circle chosen by `sphericalTrigonometry.intersection` from the
law-of-cosines angles `t1`, `t2` and the sign of `sin(b2 - b1)`. -/
noncomputable def bearings12 (t1 t2 sdb : ℝ) : ℝ × ℝ :=
  if 0 < sdb then (t1, PI2 - t2) else (PI2 - t1, t2)

open Classical in
/-- `sphericalTrigonometry.intersection(start1, bearing1, start2,
bearing2)`: raises `ValueError('parallel')` when the angular
separation of the starts, or either derived `sin(r12)*cos(lat)` term,
is within `EPS` of zero; raises `ValueError('infinite')` when the
sines of both wrapped bearing offsets are zero; raises
`ValueError('ambiguous')` when the product of those sines is negative;
otherwise solves the spherical triangle and projects the intersection
point from `start1` along `bearing1` via `_destination2`, with the
average of the two start heights.  (The Python `acos` calls on the
law-of-cosines quotients are embedded with the total `Real.arccos`;
over the reals those quotients are cosines of spherical-triangle
angles and lie within the domain.) -/
noncomputable def intersection (start1 : LatLon) (bearing1 : ℝ)
    (start2 : LatLon) (bearing2 : ℝ) : Except Err LatLon :=
  let a1 := radians start1.lat; let b1 := radians start1.lon
  let a2 := radians start2.lat; let b2 := radians start2.lon
  let r12 := (haversine3 a2 a1 (b2 - b1)).1
  if |r12| < EPS then .error .parallel
  else
    let sa1 := sin a1; let sa2 := sin a2; let sr12 := sin r12
    let ca1 := cos a1; let ca2 := cos a2
    let x1 := sr12 * ca1
    let x2 := sr12 * ca2
    if min |x1| |x2| < EPS then .error .parallel
    else
      let cr12 := cos r12
      let t1 := arccos ((sa2 - sa1 * cr12) / x1)
      let t2 := arccos ((sa1 - sa2 * cr12) / x2)
      let tt := bearings12 t1 t2 (sin (b2 - b1))
      let t13 := radians bearing1
      let t23 := radians bearing2
      let X1 := wrapPI (t13 - tt.1)
      let X2 := wrapPI (tt.2 - t23)
      let sx1 := sin X1
      let sx2 := sin X2
      if sx1 = 0 ∧ sx2 = 0 then .error .infiniteInter
      else
        let sx3 := sx1 * sx2
        if sx3 < 0 then .error .ambiguous
        else
          let cx1 := cos X1; let cx2 := cos X2
          let x3 := arccos (cr12 * sx3 - cx2 * cx1)
          let r13 := atan2 (sr12 * sx3) (cx2 + cx1 * cos x3)
          .ok (destination2 a1 b1 r13 t13
                 (favg start1.height start2.height (1 / 2)))

/-- Modelled from the spec: the `vector3d` and `sphericalBase` modules
are not under `src/`.  Per the spec (section 3 and 4.1) the unit-vector
conversion available on a point is the lazily cached `toVector3d`
(here `LatLonC.toVector3d`); neither the spec nor the in-src classes
define any attribute named `Vector3d` on a point, so the generator
expression `sumOf(p.Vector3d() for p in points)` in
`sphericalTrigonometry.meanOf` raises `AttributeError` at its first
element.  The preceding `points(points, closed=False)` validation
guarantees at least one element, hence `meanOf` raises
`AttributeError` on every input that passes validation. -/
noncomputable def meanOf (points : List LatLon) (_height : Option ℝ) :
    Except Err LatLon := do
  let _ ← points_ false points
  throw .attributeError

open Classical in
/-- `sphericalTrigonometry.LatLon.crossingParallels(other, lat)`:
longitudes at which the great circle through the two points crosses
the given latitude, `none` when `|z| > hypot(x, y)`.  The Python
division `z / h` raises `ZeroDivisionError` when `h == 0`, embedded as
`Except`. -/
noncomputable def crossingParallels (p other : LatLon) (lat : ℝ) :
    Except Err (Option (ℝ × ℝ)) :=
  let a1 := radians p.lat; let b1 := radians p.lon
  let a2 := radians other.lat; let b2 := radians other.lon
  let a := radians lat
  let db := b2 - b1
  let ca := cos a; let ca1 := cos a1; let ca2 := cos a2; let cdb := cos db
  let sa := sin a; let sa1 := sin a1; let sa2 := sin a2; let sdb := sin db
  let x := sa1 * ca2 * ca * sdb
  let y := sa1 * ca2 * ca * cdb - ca1 * sa2 * ca
  let z := ca1 * ca2 * sa * sdb
  let h := hypot x y
  if |z| > h then .ok none
  else if h = 0 then .error .zeroDivision
  else
    let m := atan2 (-y) x + b1
    let d := arccos (z / h)
    .ok (some (degrees180 (m - d), degrees180 (m + d)))

/-- The mutable-state view of a spherical `LatLon` point: the primary
coordinates together with the two lazily cached derived fields,
`_ab` (the radians pair, `bases.LatLonHeightBase._ab`, whose Python
falsy initial value `()` and reset value `None` are both `none` here)
and `_v3d` (the cached `Vector3d`,
`sphericalTrigonometry.LatLon._v3d`). -/
structure LatLonC where
  lat : ℝ
  lon : ℝ
  height : ℝ
  _ab : Option (ℝ × ℝ)
  _v3d : Option (ℝ × ℝ × ℝ)

/-- The constructor `LatLonHeightBase.__init__`: both caches start
empty. -/
def LatLonC.mkP (lat lon height : ℝ) : LatLonC := ⟨lat, lon, height, none, none⟩

open Classical in
/-- `sphericalTrigonometry.LatLon._update(updated)`: when `updated`
holds, clear the vector cache and delegate to
`bases.LatLonHeightBase._update`, which clears the radians cache. -/
noncomputable def LatLonC.update_ (p : LatLonC) (updated : Prop) : LatLonC :=
  if updated then { p with _v3d := none, _ab := none } else p

/-- The `height` setter (`bases.LatLonHeightBase.height`): calls
`_update(height != self._height)` and then stores the new height. -/
noncomputable def LatLonC.setHeight (p : LatLonC) (h : ℝ) : LatLonC :=
  let p1 := p.update_ (h ≠ p.height)
  { p1 with height := h }

/-- The `lat` setter (`bases.LatLonHeightBase.lat`): calls
`_update(lat != self._lat)` and then stores the new latitude. -/
noncomputable def LatLonC.setLat (p : LatLonC) (v : ℝ) : LatLonC :=
  let p1 := p.update_ (v ≠ p.lat)
  { p1 with lat := v }

/-- The `lon` setter (`bases.LatLonHeightBase.lon`): calls
`_update(lon != self._lon)` and then stores the new longitude. -/
noncomputable def LatLonC.setLon (p : LatLonC) (v : ℝ) : LatLonC :=
  let p1 := p.update_ (v ≠ p.lon)
  { p1 with lon := v }

/-- `bases.LatLonHeightBase.to2ab`: returns the cached radians pair if
present, otherwise computes `map1(radians, lat, lon)`, stores it and
returns it.  The returned pair comes first, the updated point second. -/
noncomputable def LatLonC.to2ab (p : LatLonC) : (ℝ × ℝ) × LatLonC :=
  match p._ab with
  | some ab => (ab, p)
  | none =>
      let ab := (radians p.lat, radians p.lon)
      (ab, { p with _ab := some ab })

/-- The geodetic-to-n-vector projection used by
`bases.LatLonHeightBase.to3xyz`: `(cos a cos b, cos a sin b, sin a)`. -/
noncomputable def xyzOf (a b : ℝ) : ℝ × ℝ × ℝ :=
  (cos a * cos b, cos a * sin b, sin a)

/-- `bases.LatLonHeightBase.to3xyz`: reads the radians pair through
`to2ab` (possibly filling that cache) and projects. -/
noncomputable def LatLonC.to3xyz (p : LatLonC) : (ℝ × ℝ × ℝ) × LatLonC :=
  let abp := p.to2ab
  (xyzOf abp.1.1 abp.1.2, abp.2)

/-- `sphericalTrigonometry.LatLon.toVector3d`: returns the cached
vector if present, otherwise computes `to3xyz`, stores and returns
it. -/
noncomputable def LatLonC.toVector3d (p : LatLonC) : (ℝ × ℝ × ℝ) × LatLonC :=
  match p._v3d with
  | some v => (v, p)
  | none =>
      let xp := p.to3xyz
      (xp.1, { xp.2 with _v3d := some xp.1 })

/-- One operation on a point: a coordinate or height assignment, or a
read of one of the two lazily cached derived values. -/
inductive Op where
  | setLat (v : ℝ) : Op
  | setLon (v : ℝ) : Op
  | setHeight (v : ℝ) : Op
  | readAb : Op
  | readV3d : Op

/-- The state reached after one operation. -/
noncomputable def stepOp (p : LatLonC) : Op → LatLonC
  | .setLat v => p.setLat v
  | .setLon v => p.setLon v
  | .setHeight v => p.setHeight v
  | .readAb => p.to2ab.2
  | .readV3d => p.toVector3d.2

/-- The state reached after a sequence of operations. -/
noncomputable def runOps (p : LatLonC) : List Op → LatLonC
  | [] => p
  | o :: os => runOps (stepOp p o) os

/-- The cache-consistency invariant: each cache, whenever present,
holds exactly the value derived from the current latitude and
longitude. -/
def inv (p : LatLonC) : Prop :=
  (p._ab = none ∨ p._ab = some (radians p.lat, radians p.lon)) ∧
  (p._v3d = none ∨ p._v3d = some (xyzOf (radians p.lat) (radians p.lon)))

theorem inv_mkP (lat lon h : ℝ) : inv (LatLonC.mkP lat lon h) :=
  ⟨Or.inl rfl, Or.inl rfl⟩

theorem inv_update_ (p : LatLonC) (u : Prop) (hp : inv p) :
    inv (p.update_ u) := by
  unfold LatLonC.update_
  split
  · exact ⟨Or.inl rfl, Or.inl rfl⟩
  · exact hp

theorem update_caches (p : LatLonC) (u : Prop) (hu : u) :
    (p.update_ u)._ab = none ∧ (p.update_ u)._v3d = none := by
  unfold LatLonC.update_
  rw [if_pos hu]
  exact ⟨rfl, rfl⟩

theorem inv_setLat (p : LatLonC) (v : ℝ) (hp : inv p) :
    inv (p.setLat v) := by
  unfold LatLonC.setLat LatLonC.update_
  by_cases h : v ≠ p.lat
  · rw [if_pos h]; exact ⟨Or.inl rfl, Or.inl rfl⟩
  · rw [if_neg h]
    rw [not_not] at h
    subst h
    exact hp

theorem inv_setLon (p : LatLonC) (v : ℝ) (hp : inv p) :
    inv (p.setLon v) := by
  unfold LatLonC.setLon LatLonC.update_
  by_cases h : v ≠ p.lon
  · rw [if_pos h]; exact ⟨Or.inl rfl, Or.inl rfl⟩
  · rw [if_neg h]
    rw [not_not] at h
    subst h
    exact hp

theorem inv_setHeight (p : LatLonC) (v : ℝ) (hp : inv p) :
    inv (p.setHeight v) := by
  unfold LatLonC.setHeight LatLonC.update_
  by_cases h : v ≠ p.height
  · rw [if_pos h]; exact ⟨Or.inl rfl, Or.inl rfl⟩
  · rw [if_neg h]; exact hp

theorem to2ab_eq_some (p : LatLonC) (ab : ℝ × ℝ) (h : p._ab = some ab) :
    p.to2ab = (ab, p) := by
  unfold LatLonC.to2ab
  rw [h]

theorem to2ab_eq_none (p : LatLonC) (h : p._ab = none) :
    p.to2ab = ((radians p.lat, radians p.lon),
               { p with _ab := some (radians p.lat, radians p.lon) }) := by
  unfold LatLonC.to2ab
  rw [h]

theorem inv_to2ab (p : LatLonC) (hp : inv p) : inv p.to2ab.2 := by
  cases hab : p._ab with
  | none => rw [to2ab_eq_none p hab]; exact ⟨Or.inr rfl, hp.2⟩
  | some ab => rw [to2ab_eq_some p ab hab]; exact hp

theorem to2ab_val (p : LatLonC) (hp : inv p) :
    p.to2ab.1 = (radians p.lat, radians p.lon) := by
  cases hab : p._ab with
  | none => rw [to2ab_eq_none p hab]
  | some ab =>
      rw [to2ab_eq_some p ab hab]
      rcases hp.1 with h | h
      · rw [hab] at h; exact absurd h (by simp)
      · rw [hab] at h
        exact (Option.some_injective _ h)

theorem to2ab_coords (p : LatLonC) :
    p.to2ab.2.lat = p.lat ∧ p.to2ab.2.lon = p.lon := by
  cases hab : p._ab with
  | none => rw [to2ab_eq_none p hab]; exact ⟨rfl, rfl⟩
  | some ab => rw [to2ab_eq_some p ab hab]; exact ⟨rfl, rfl⟩

theorem inv_toVector3d (p : LatLonC) (hp : inv p) : inv p.toVector3d.2 := by
  cases hv : p._v3d with
  | some v =>
      have : p.toVector3d = (v, p) := by
        unfold LatLonC.toVector3d
        rw [hv]
      rw [this]
      exact hp
  | none =>
      have hstep : p.toVector3d.2 =
          { p.to2ab.2 with _v3d := some (xyzOf p.to2ab.1.1 p.to2ab.1.2) } := by
        unfold LatLonC.toVector3d LatLonC.to3xyz
        rw [hv]
      have h1 := inv_to2ab p hp
      have h2 := to2ab_val p hp
      have h3 := to2ab_coords p
      rw [hstep]
      constructor
      · rcases h1.1 with h | h
        · exact Or.inl h
        · exact Or.inr h
      · refine Or.inr ?_
        rw [h2]
        rw [h3.1, h3.2]

theorem inv_stepOp (p : LatLonC) (o : Op) (hp : inv p) :
    inv (stepOp p o) := by
  cases o with
  | setLat v => exact inv_setLat p v hp
  | setLon v => exact inv_setLon p v hp
  | setHeight v => exact inv_setHeight p v hp
  | readAb => exact inv_to2ab p hp
  | readV3d => exact inv_toVector3d p hp

theorem inv_runOps (p : LatLonC) (ops : List Op) (hp : inv p) :
    inv (runOps p ops) := by
  induction ops generalizing p with
  | nil => exact hp
  | cons o os ih => exact ih (stepOp p o) (inv_stepOp p o hp)

/-- Claim C2 (counterexample): the claim "setting the height leaves
both derived caches intact" fails on the code.  On a point whose
radians cache has just been filled by a `to2ab` read, assigning the
different height `1` leaves the radians cache empty, not "still
present": the `height` setter calls `_update(height != self._height)`,
which clears both caches. -/
theorem setHeight_clears_cache_cex :
    ((((LatLonC.mkP 0 0 0).to2ab).2).setHeight 1)._ab = none := by
  rw [to2ab_eq_none _ rfl]
  unfold LatLonC.setHeight LatLonC.update_
  norm_num [LatLonC.mkP]

/-- Claim C2 (amended): a height assignment leaves both caches intact
exactly when the new height equals the current one; assigning a
different height clears both caches (the setter passes
`height != self._height` to `_update`). -/
theorem setHeight_cache_amended (p : LatLonC) (h : ℝ) :
    (h = p.height →
      (p.setHeight h)._ab = p._ab ∧ (p.setHeight h)._v3d = p._v3d)
    ∧ (h ≠ p.height →
      (p.setHeight h)._ab = none ∧ (p.setHeight h)._v3d = none) := by
  constructor
  · intro he
    unfold LatLonC.setHeight LatLonC.update_
    rw [if_neg (by simp [he])]
    exact ⟨rfl, rfl⟩
  · intro hne
    unfold LatLonC.setHeight LatLonC.update_
    rw [if_pos hne]
    exact ⟨rfl, rfl⟩

/-- Witness for the amended claim C2 at concrete inputs: re-assigning
the same height `3` preserves a present radians cache, while assigning
`4` clears both caches. -/
theorem setHeight_cache_amended_witness :
    (((LatLonC.mk 1 2 3 (some (0, 0)) none).setHeight 3)._ab = some (0, 0)
      ∧ ((LatLonC.mk 1 2 3 (some (0, 0)) none).setHeight 3)._v3d = none)
    ∧ (((LatLonC.mk 1 2 3 (some (0, 0)) none).setHeight 4)._ab = none
      ∧ ((LatLonC.mk 1 2 3 (some (0, 0)) none).setHeight 4)._v3d = none) :=
  ⟨(setHeight_cache_amended (LatLonC.mk 1 2 3 (some (0, 0)) none) 3).1 rfl,
   (setHeight_cache_amended (LatLonC.mk 1 2 3 (some (0, 0)) none) 4).2
     (by norm_num)⟩

/-- Claim C4: starting from a freshly constructed point, after any
sequence of latitude, longitude or height assignments interleaved with
cached reads, each cache, whenever present, holds exactly the radians
pair resp. unit vector computed from the current latitude and
longitude; moreover a latitude or longitude assignment with a value
different from the current one clears both caches. -/
theorem cache_invariant_spec :
    (∀ (lat lon h : ℝ) (ops : List Op),
        inv (runOps (LatLonC.mkP lat lon h) ops))
    ∧ (∀ (p : LatLonC) (v : ℝ), v ≠ p.lat →
        (p.setLat v)._ab = none ∧ (p.setLat v)._v3d = none)
    ∧ (∀ (p : LatLonC) (v : ℝ), v ≠ p.lon →
        (p.setLon v)._ab = none ∧ (p.setLon v)._v3d = none) := by
  refine ⟨fun lat lon h ops => inv_runOps _ ops (inv_mkP lat lon h), ?_, ?_⟩
  · intro p v hv
    exact ⟨(update_caches p _ hv).1, (update_caches p _ hv).2⟩
  · intro p v hv
    exact ⟨(update_caches p _ hv).1, (update_caches p _ hv).2⟩

/-- Witness for claim C4 at concrete inputs: a read-read-set-read
sequence on the point (1, 2) keeps the caches consistent, and setting
a different latitude resp. longitude clears both caches. -/
theorem cache_invariant_spec_witness :
    inv (runOps (LatLonC.mkP 1 2 0)
          [Op.readAb, Op.readV3d, Op.setLat 7, Op.readAb])
    ∧ (((LatLonC.mkP 1 2 0).setLat 5)._ab = none
       ∧ ((LatLonC.mkP 1 2 0).setLat 5)._v3d = none)
    ∧ (((LatLonC.mkP 1 2 0).setLon 6)._ab = none
       ∧ ((LatLonC.mkP 1 2 0).setLon 6)._v3d = none) :=
  ⟨cache_invariant_spec.1 1 2 0 _,
   cache_invariant_spec.2.1 (LatLonC.mkP 1 2 0) 5 (by norm_num [LatLonC.mkP]),
   cache_invariant_spec.2.2 (LatLonC.mkP 1 2 0) 6 (by norm_num [LatLonC.mkP])⟩

theorem hsin_neg (x : ℝ) : hsin (-x) = hsin x := by
  unfold hsin
  rw [neg_div, sin_neg]
  ring

theorem havOf_symm (a1 a2 b1 b2 : ℝ) :
    havOf a2 a1 (b2 - b1) = havOf a1 a2 (b1 - b2) := by
  unfold havOf
  rw [show a1 - a2 = -(a2 - a1) by ring, show b1 - b2 = -(b2 - b1) by ring,
      hsin_neg, hsin_neg]
  ring

/-- Claim C8: `distanceTo` is symmetric in its two endpoints, for
every radius: the haversine value is invariant under swapping the two
points, hence so are the angular distance and the returned
distance. -/
theorem distanceTo_symm (p q : LatLon) (radius : ℝ) :
    distanceTo p q radius = distanceTo q p radius := by
  unfold distanceTo haversine3
  dsimp only
  rw [havOf_symm (radians p.lat) (radians q.lat) (radians p.lon)
        (radians q.lon)]

/-- Claim C9: whenever the haversine value `h` lies outside `[0, 1]`
(so that one of the two square roots in `_haversine3` would raise a
math-domain `ValueError`), the angular distance falls back
deterministically to `0` for `h < 0.5` and to `pi` otherwise, the
error never escaping (`hav3r` is total); and `distanceTo` returns the
angular distance obtained from the haversine value times the
radius. -/
theorem haversine_fallback (h R : ℝ) (p q : LatLon)
    (hout : h < 0 ∨ 1 < h) :
    hav3r h = (if h < 1 / 2 then 0 else π)
    ∧ distanceTo p q R =
        hav3r (havOf (radians q.lat) (radians p.lat)
                 (radians q.lon - radians p.lon)) * R := by
  constructor
  · unfold hav3r sqrtE
    rcases hout with h1 | h1
    · rw [if_pos h1]; rfl
    · rw [if_neg (by linarith), if_pos (by linarith)]; rfl
  · rfl

/-- Witness for claim C9 at the concrete haversine value `3/2 > 1`
(and a pair of concrete points for the distance part). -/
theorem haversine_fallback_witness :
    ((1 : ℝ) < 3 / 2)
    ∧ (hav3r (3 / 2) = (if (3 : ℝ) / 2 < 1 / 2 then 0 else π)
       ∧ distanceTo ⟨52, 0, 10⟩ ⟨48, 2, 20⟩ 6371000 =
           hav3r (havOf (radians (LatLon.mk 48 2 20).lat)
                    (radians (LatLon.mk 52 0 10).lat)
                    (radians (LatLon.mk 48 2 20).lon -
                       radians (LatLon.mk 52 0 10).lon)) * 6371000) :=
  ⟨by norm_num,
   haversine_fallback (3 / 2) 6371000 ⟨52, 0, 10⟩ ⟨48, 2, 20⟩
     (Or.inr (by norm_num))⟩

theorem EPS_pos : (0 : ℝ) < EPS := by norm_num [EPS]

theorem EPS_lt_half : EPS < 1 / 2 := by norm_num [EPS]

/-- Claim C7: `intermediateTo` short-circuits — a fraction within
machine epsilon of `0` yields exactly this point's latitude, longitude
and height, a fraction within machine epsilon of `1` yields exactly
the other point's; in particular the fractions `0` and `1` reproduce
the respective endpoint exactly. -/
theorem intermediateTo_shortcircuit (p q : LatLon) (f : ℝ) :
    (|f| < EPS →
        intermediateTo p q f = ⟨p.lat, p.lon, p.height⟩)
    ∧ (|1 - f| < EPS →
        intermediateTo p q f = ⟨q.lat, q.lon, q.height⟩)
    ∧ intermediateTo p q 0 = ⟨p.lat, p.lon, p.height⟩
    ∧ intermediateTo p q 1 = ⟨q.lat, q.lon, q.height⟩ := by
  have hE0 := EPS_pos
  have hEh := EPS_lt_half
  refine ⟨?_, ?_, ?_, ?_⟩
  · intro hf
    unfold intermediateTo
    rw [if_pos (lt_of_le_of_lt (le_abs_self f) hf)]
  · intro hf
    have h1 : 1 - f < EPS := lt_of_le_of_lt (le_abs_self _) hf
    unfold intermediateTo
    rw [if_neg (by unfold EPS at *; linarith),
        if_pos (by unfold EPS1; linarith)]
  · unfold intermediateTo
    rw [if_pos hE0]
  · unfold intermediateTo
    rw [if_neg (by linarith), if_pos (by unfold EPS1; linarith)]

/-- Witness for claim C7 at concrete points and the concrete
fractions `0` and `1`. -/
theorem intermediateTo_shortcircuit_witness :
    (|(0 : ℝ)| < EPS ∧
       intermediateTo ⟨52, 0, 10⟩ ⟨48, 2, 20⟩ 0 = ⟨52, 0, 10⟩)
    ∧ (|1 - (1 : ℝ)| < EPS ∧
       intermediateTo ⟨52, 0, 10⟩ ⟨48, 2, 20⟩ 1 = ⟨48, 2, 20⟩) :=
  ⟨⟨by norm_num [EPS],
    (intermediateTo_shortcircuit ⟨52, 0, 10⟩ ⟨48, 2, 20⟩ 0).1
      (by norm_num [EPS])⟩,
   ⟨by norm_num [EPS],
    (intermediateTo_shortcircuit ⟨52, 0, 10⟩ ⟨48, 2, 20⟩ 1).2.1
      (by norm_num [EPS])⟩⟩

/-- Claim C1 (code bug): `meanOf` never returns the vector-mean point.
After the open validation succeeds (which guarantees a first element),
the generator `sumOf(p.Vector3d() for p in points)` looks up the
attribute `Vector3d` on a `LatLon` instance; no such attribute exists
on `LatLon` or any of its base classes (the unit-vector conversion is
`toVector3d`, used correctly by `isEnclosedBy` in the same module), so
the call raises `AttributeError` instead of computing the mean.
Evaluated here at the failing input `meanOf([LatLon(45, 1)])`. -/
theorem meanOf_attributeError_bug :
    meanOf [⟨45, 1, 0⟩] none = .error .attributeError := rfl

theorem wrap180_eq_self (d : ℝ) (h1 : -180 < d) (h2 : d ≤ 180) :
    wrap180 d = d := by
  unfold wrap180
  have : ⌈(d - 180) / 360⌉ = 0 := by
    rw [Int.ceil_eq_zero_iff]
    constructor
    · rw [lt_div_iff₀ (by norm_num : (0:ℝ) < 360)]
      linarith
    · apply div_nonpos_of_nonpos_of_nonneg <;> linarith
  rw [this]
  push_cast
  ring

theorem wrap90_eq_self (d : ℝ) (h1 : -90 < d) (h2 : d ≤ 90) :
    wrap90 d = d := by
  unfold wrap90
  have : ⌈(d - 90) / 180⌉ = 0 := by
    rw [Int.ceil_eq_zero_iff]
    constructor
    · rw [lt_div_iff₀ (by norm_num : (0:ℝ) < 180)]
      linarith
    · apply div_nonpos_of_nonpos_of_nonneg <;> linarith
  rw [this]
  push_cast
  ring

theorem points_true_eq_dup (ps : List LatLon) (h1 : 1 < ps.length)
    (h2 : (ps.headD dLL).equalsLL (ps.getLastD dLL)) :
    points_ true ps =
      if ps.length - 1 < 3 then .error (.tooFewPoints (ps.length - 1))
      else .ok (ps.length - 1, ps.dropLast) := by
  simp only [points_, h1, h2, eq_self_iff_true, if_true]

theorem points_true_eq_nodup (ps : List LatLon) (h1 : 1 < ps.length)
    (h2 : ¬ (ps.headD dLL).equalsLL (ps.getLastD dLL)) :
    points_ true ps =
      if ps.length < 3 then .error (.tooFewPoints ps.length)
      else .ok (ps.length, ps) := by
  simp only [points_, h1, h2, eq_self_iff_true, if_true, if_false]

theorem points_true_eq_short (ps : List LatLon) (h1 : ¬ 1 < ps.length) :
    points_ true ps =
      if ps.length < 3 then .error (.tooFewPoints ps.length)
      else .ok (ps.length, ps) := by
  simp only [points_, h1, eq_self_iff_true, if_true, if_false]

theorem points_false_eq (ps : List LatLon) :
    points_ false ps =
      if ps.length < 1 then .error (.tooFewPoints ps.length)
      else .ok (ps.length, ps) := by
  simp only [points_, Bool.false_eq_true, if_false]

open Classical in
/-- Claim C6: the `points` validator drops an exact trailing duplicate
of the first point (when `closed` and more than one element),
decrements the count accordingly, raises `ValueError('too few
points')` exactly when the resulting count is below the minimum (3
when closed, 1 when open), and otherwise returns the count together
with the possibly trimmed sequence. -/
theorem points_validation (closed : Bool) (ps : List LatLon) :
    let dup : Prop := closed ∧ 1 < ps.length ∧
        (ps.headD dLL).equalsLL (ps.getLastD dLL)
    let n : ℕ := if dup then ps.length - 1 else ps.length
    let mn : ℕ := if closed then 3 else 1
    ((points_ closed ps = .error (.tooFewPoints n)) ↔ n < mn)
    ∧ (¬ n < mn →
        points_ closed ps = .ok (n, if dup then ps.dropLast else ps)) := by
  dsimp only
  cases closed with
  | false =>
      simp only [Bool.false_eq_true, false_and, if_false]
      rw [points_false_eq]
      by_cases hl : ps.length < 1
      · rw [if_pos hl]
        exact ⟨⟨fun _ => hl, fun _ => rfl⟩, fun hc => absurd hl hc⟩
      · rw [if_neg hl]
        exact ⟨⟨fun he => absurd he (by simp), fun hc => absurd hc hl⟩,
               fun _ => rfl⟩
  | true =>
      simp only [eq_self_iff_true, true_and, if_true]
      by_cases h1 : 1 < ps.length
      · by_cases h2 : (ps.headD dLL).equalsLL (ps.getLastD dLL)
        · have hdup : 1 < ps.length ∧
              (ps.headD dLL).equalsLL (ps.getLastD dLL) := ⟨h1, h2⟩
          rw [points_true_eq_dup ps h1 h2, if_pos hdup, if_pos hdup]
          by_cases h3 : ps.length - 1 < 3
          · rw [if_pos h3]
            exact ⟨⟨fun _ => h3, fun _ => rfl⟩, fun hc => absurd h3 hc⟩
          · rw [if_neg h3]
            exact ⟨⟨fun he => absurd he (by simp), fun hc => absurd hc h3⟩,
                   fun _ => rfl⟩
        · have hnd : ¬ (1 < ps.length ∧
              (ps.headD dLL).equalsLL (ps.getLastD dLL)) := fun hc => h2 hc.2
          rw [points_true_eq_nodup ps h1 h2, if_neg hnd, if_neg hnd]
          by_cases h3 : ps.length < 3
          · rw [if_pos h3]
            exact ⟨⟨fun _ => h3, fun _ => rfl⟩, fun hc => absurd h3 hc⟩
          · rw [if_neg h3]
            exact ⟨⟨fun he => absurd he (by simp), fun hc => absurd hc h3⟩,
                   fun _ => rfl⟩
      · have hnd : ¬ (1 < ps.length ∧
            (ps.headD dLL).equalsLL (ps.getLastD dLL)) := fun hc => h1 hc.1
        rw [points_true_eq_short ps h1, if_neg hnd, if_neg hnd]
        by_cases h3 : ps.length < 3
        · rw [if_pos h3]
          exact ⟨⟨fun _ => h3, fun _ => rfl⟩, fun hc => absurd h3 hc⟩
        · rw [if_neg h3]
          exact ⟨⟨fun he => absurd he (by simp), fun hc => absurd hc h3⟩,
                 fun _ => rfl⟩

/-- Witness for claim C6: the closed 4-element input whose last entry
duplicates the first is trimmed to its first three points with count
3 (the spec's clockwise triangle example). -/
theorem points_validation_witness :
    points_ true [⟨45, 1, 0⟩, ⟨46, 1, 0⟩, ⟨46, 2, 0⟩, ⟨45, 1, 0⟩] =
      .ok (3, [⟨45, 1, 0⟩, ⟨46, 1, 0⟩, ⟨46, 2, 0⟩]) := by
  have hd : ((true : Bool) : Prop) ∧
      1 < ([⟨45, 1, 0⟩, ⟨46, 1, 0⟩, ⟨46, 2, 0⟩,
            (⟨45, 1, 0⟩ : LatLon)]).length ∧
      (([⟨45, 1, 0⟩, ⟨46, 1, 0⟩, ⟨46, 2, 0⟩,
         (⟨45, 1, 0⟩ : LatLon)]).headD dLL).equalsLL
        (([⟨45, 1, 0⟩, ⟨46, 1, 0⟩, ⟨46, 2, 0⟩,
           (⟨45, 1, 0⟩ : LatLon)]).getLastD dLL) :=
    ⟨rfl, by norm_num, ⟨rfl, rfl⟩⟩
  have h := (points_validation true
      [⟨45, 1, 0⟩, ⟨46, 1, 0⟩, ⟨46, 2, 0⟩, ⟨45, 1, 0⟩]).2
      (by rw [if_pos hd]; decide)
  rw [if_pos hd, if_pos hd] at h
  exact h

theorem points_ok_facts (ps pts : List LatLon) (n : ℕ)
    (h : points_ true ps = .ok (n, pts)) :
    pts.length = n ∧ 3 ≤ n := by
  by_cases h1 : 1 < ps.length
  · by_cases h2 : (ps.headD dLL).equalsLL (ps.getLastD dLL)
    · rw [points_true_eq_dup ps h1 h2] at h
      by_cases h3 : ps.length - 1 < 3
      · rw [if_pos h3] at h
        exact absurd h (by simp)
      · rw [if_neg h3] at h
        have h' := Except.ok.inj h
        rw [Prod.ext_iff] at h'
        obtain ⟨hn, hp⟩ := h'
        dsimp only at hn hp
        subst hn
        subst hp
        exact ⟨List.length_dropLast _, by omega⟩
    · rw [points_true_eq_nodup ps h1 h2] at h
      by_cases h3 : ps.length < 3
      · rw [if_pos h3] at h
        exact absurd h (by simp)
      · rw [if_neg h3] at h
        have h' := Except.ok.inj h
        rw [Prod.ext_iff] at h'
        obtain ⟨hn, hp⟩ := h'
        dsimp only at hn hp
        subst hn
        subst hp
        exact ⟨rfl, by omega⟩
  · rw [points_true_eq_short ps h1] at h
    by_cases h3 : ps.length < 3
    · rw [if_pos h3] at h
      exact absurd h (by simp)
    · rw [if_neg h3] at h
      have h' := Except.ok.inj h
      rw [Prod.ext_iff] at h'
      obtain ⟨hn, hp⟩ := h'
      dsimp only at hn hp
      subst hn
      subst hp
      exact ⟨rfl, by omega⟩

theorem pseudoAreas_ne_nil (s : ℝ × ℝ) (pts : List LatLon)
    (h : pts ≠ []) : pseudoAreas s pts ≠ [] := by
  cases pts with
  | nil => exact absurd rfl h
  | cons p ps =>
      cases s with
      | mk x y => simp [pseudoAreas]

open Classical in
/-- Claim C5: on a validated closed polygon, `isclockwise` returns
`True` when the accumulated signed pseudo-area is positive, `False`
when it is negative, and raises `ValueError('zero area')` when it is
exactly zero; an input whose count (after removal of a closing
duplicate) is below three raises `ValueError('too few points')`. -/
theorem isclockwise_spec (points : List LatLon) :
    (∀ (n : ℕ) (pts : List LatLon), points_ true points = .ok (n, pts) →
        isclockwise points =
          (if 0 < fsum (pseudoAreas (xy2 (pts.getLastD dLL)) pts) then
             .ok true
           else if fsum (pseudoAreas (xy2 (pts.getLastD dLL)) pts) < 0 then
             .ok false
           else .error .zeroArea))
    ∧ (∀ (m : ℕ), points_ true points = .error (.tooFewPoints m) →
        isclockwise points = .error (.tooFewPoints m)) := by
  constructor
  · intro n pts hok
    have hne : pts ≠ [] := by
      have := (points_ok_facts points pts n hok).1
      have h3 := (points_ok_facts points pts n hok).2
      intro hnil
      rw [hnil] at this
      simp at this
      omega
    unfold isclockwise
    rw [hok]
    show (if pseudoAreas (xy2 (pts.getLastD dLL)) pts = [] then _ else _) = _
    rw [if_neg (pseudoAreas_ne_nil _ pts hne)]
    rfl
  · intro m herr
    unfold isclockwise
    rw [herr]
    rfl

/-- Witness for claim C5: the spec's counter-clockwise rectangle
`[(45,1), (45,2), (46,2), (46,1)]` has signed pseudo-area `-2`, so
`isclockwise` returns `False` on it. -/
theorem isclockwise_spec_witness :
    isclockwise [⟨45, 1, 0⟩, ⟨45, 2, 0⟩, ⟨46, 2, 0⟩, ⟨46, 1, 0⟩] =
      .ok false := by
  have hok : points_ true [⟨45, 1, 0⟩, ⟨45, 2, 0⟩, ⟨46, 2, 0⟩,
      (⟨46, 1, 0⟩ : LatLon)] =
      .ok (4, [⟨45, 1, 0⟩, ⟨45, 2, 0⟩, ⟨46, 2, 0⟩, ⟨46, 1, 0⟩]) := by
    rw [points_true_eq_nodup
          [⟨45, 1, 0⟩, ⟨45, 2, 0⟩, ⟨46, 2, 0⟩, ⟨46, 1, 0⟩] (by decide)
          (fun hh => absurd (show (45 : ℝ) = 46 from hh.1) (by norm_num))]
    rfl
  have h := (isclockwise_spec
      [⟨45, 1, 0⟩, ⟨45, 2, 0⟩, ⟨46, 2, 0⟩, ⟨46, 1, 0⟩]).1 4
      [⟨45, 1, 0⟩, ⟨45, 2, 0⟩, ⟨46, 2, 0⟩, ⟨46, 1, 0⟩] hok
  have hpa : fsum (pseudoAreas
      (xy2 (([⟨45, 1, 0⟩, ⟨45, 2, 0⟩, ⟨46, 2, 0⟩,
              (⟨46, 1, 0⟩ : LatLon)]).getLastD dLL))
      [⟨45, 1, 0⟩, ⟨45, 2, 0⟩, ⟨46, 2, 0⟩, ⟨46, 1, 0⟩]) = -2 := by
    show fsum (pseudoAreas (xy2 ⟨46, 1, 0⟩)
      [⟨45, 1, 0⟩, ⟨45, 2, 0⟩, ⟨46, 2, 0⟩, ⟨46, 1, 0⟩]) = -2
    simp only [pseudoAreas, xy2, fsum]
    rw [wrap180_eq_self 1 (by norm_num) (by norm_num),
        wrap180_eq_self 2 (by norm_num) (by norm_num),
        wrap90_eq_self 45 (by norm_num) (by norm_num),
        wrap90_eq_self 46 (by norm_num) (by norm_num)]
    simp [List.sum_cons]
    norm_num
  rw [h, hpa]
  norm_num

/-- Claim C10: `crossingParallels` is not total — with both points
equal (same latitude and longitude) the solved plane-intersection
coordinates `x`, `y`, `z` are all zero, the no-crossing guard
`|z| > hypot(x, y)` does not fire (`0 > 0` is false), and the
computation reaches the division `z / hypot(x, y)` with a zero
divisor, raising `ZeroDivisionError` instead of returning a longitude
pair or `None`. -/
theorem crossingParallels_zero_div (p : LatLon) (lat : ℝ) :
    crossingParallels p p lat = .error .zeroDivision := by
  unfold crossingParallels hypot
  dsimp only
  rw [sub_self, Real.sin_zero, Real.cos_zero]
  rw [mul_zero, mul_zero, mul_one]
  rw [show sin (radians p.lat) * cos (radians p.lat) * cos (radians lat) -
        cos (radians p.lat) * sin (radians p.lat) * cos (radians lat) = 0
      by ring]
  rw [abs_zero]
  norm_num

theorem radians_zero : radians 0 = 0 := by
  unfold radians
  ring

theorem radians_90 : radians 90 = π / 2 := by
  unfold radians
  ring

theorem radians_270 : radians 270 = 3 * π / 2 := by
  unfold radians
  ring

theorem radians_315 : radians 315 = 7 * π / 4 := by
  unfold radians
  ring

theorem wrapPI_pi : wrapPI π = π := by
  unfold wrapPI PI2
  rw [sub_self, zero_div, Int.ceil_zero]
  push_cast
  ring

theorem wrapPI_neg_quarter_pi : wrapPI (-(π / 4)) = -(π / 4) := by
  unfold wrapPI PI2
  have hq : (-(π / 4) - π) / (2 * π) = -(5 / 8) := by
    field_simp
    ring
  rw [hq, show ⌈(-(5 / 8 : ℝ))⌉ = 0 by
        rw [Int.ceil_eq_zero_iff]
        constructor <;> norm_num]
  push_cast
  ring

theorem havOf_cex : havOf 0 0 (π / 2) = 1 / 2 := by
  unfold havOf hsin
  rw [show (0 : ℝ) - 0 = 0 by ring, show (0 : ℝ) / 2 = 0 by ring,
      Real.sin_zero, Real.cos_zero, show π / 2 / 2 = π / 4 by ring,
      Real.sin_pi_div_four, div_pow,
      Real.sq_sqrt (by norm_num : (0 : ℝ) ≤ 2)]
  norm_num

theorem hav3r_half : hav3r (1 / 2) = π / 2 := by
  unfold hav3r sqrtE
  rw [if_neg (by norm_num : ¬ (1 / 2 : ℝ) < 0),
      if_neg (by norm_num : ¬ (1 : ℝ) - 1 / 2 < 0)]
  show atan2 (Real.sqrt (1 / 2)) (Real.sqrt (1 - 1 / 2)) * 2 = π / 2
  rw [show (1 : ℝ) - 1 / 2 = 1 / 2 by norm_num]
  have hs : (0 : ℝ) < Real.sqrt (1 / 2) := Real.sqrt_pos.mpr (by norm_num)
  unfold atan2
  rw [if_pos hs, div_self (ne_of_gt hs), Real.arctan_one]
  ring

theorem r12_cex : (haversine3 0 0 (π / 2)).1 = π / 2 := by
  unfold haversine3
  dsimp only
  rw [havOf_cex, hav3r_half]

theorem bearings12_cex : bearings12 (π / 2) (π / 2) 1 = (π / 2, PI2 - π / 2) := by
  unfold bearings12
  rw [if_pos one_pos]

theorem abs_half_pi_not_lt_EPS : ¬ |π / 2| < EPS := by
  rw [abs_of_pos (by positivity)]
  intro hc
  have h3 := Real.pi_gt_three
  have h4 : (1 : ℝ) / 2 ^ 52 < 3 / 2 := by norm_num
  unfold EPS at hc
  linarith

theorem sqrt_two_half_pos : (0 : ℝ) < Real.sqrt 2 / 2 := by positivity

open Classical in
/-- Claim C3 (counterexample): with `start1 = (0°N, 0°E)` bearing 270
and `start2 = (0°N, 90°E)` bearing 315 the two wrapped bearing offsets
are `pi` and `-pi/4`, which have strictly opposite non-zero signs, so
the claim requires `ValueError('ambiguous')`; but the code tests
`sin(offset1) * sin(offset2) < 0`, and `sin(pi) = 0` makes the product
zero, so the code does not raise the ambiguous error (it returns a
point). -/
theorem intersection_ambiguous_cex :
    let s1 : LatLon := ⟨0, 0, 0⟩
    let s2 : LatLon := ⟨0, 90, 0⟩
    let a1 := radians s1.lat
    let a2 := radians s2.lat
    let b1 := radians s1.lon
    let b2 := radians s2.lon
    let r12 := (haversine3 a2 a1 (b2 - b1)).1
    let x1 := sin r12 * cos a1
    let x2 := sin r12 * cos a2
    let t1 := arccos ((sin a2 - sin a1 * cos r12) / x1)
    let t2 := arccos ((sin a1 - sin a2 * cos r12) / x2)
    let tt := bearings12 t1 t2 (sin (b2 - b1))
    let X1 := wrapPI (radians 270 - tt.1)
    let X2 := wrapPI (tt.2 - radians 315)
    (0 < X1 ∧ X2 < 0)
    ∧ intersection s1 270 s2 315 ≠ .error .ambiguous := by
  dsimp only
  constructor
  · rw [radians_zero, radians_90, radians_270, radians_315, sub_zero,
        r12_cex, Real.sin_pi_div_two, Real.cos_pi_div_two, Real.sin_zero,
        Real.cos_zero,
        show ((0 : ℝ) - 0 * 0) / (1 * 1) = 0 by norm_num,
        Real.arccos_zero, bearings12_cex]
    dsimp only
    rw [show 3 * π / 2 - π / 2 = π by ring,
        show PI2 - π / 2 - 7 * π / 4 = -(π / 4) by unfold PI2; ring,
        wrapPI_pi, wrapPI_neg_quarter_pi]
    exact ⟨Real.pi_pos, neg_lt_zero.mpr (by positivity)⟩
  · unfold intersection
    dsimp only
    rw [radians_zero, radians_90, radians_270, radians_315, sub_zero,
        r12_cex, Real.sin_pi_div_two, Real.cos_pi_div_two, Real.sin_zero,
        Real.cos_zero,
        show ((0 : ℝ) - 0 * 0) / (1 * 1) = 0 by norm_num,
        Real.arccos_zero, bearings12_cex]
    dsimp only
    rw [show 3 * π / 2 - π / 2 = π by ring,
        show PI2 - π / 2 - 7 * π / 4 = -(π / 4) by unfold PI2; ring,
        wrapPI_pi, wrapPI_neg_quarter_pi, Real.sin_pi, Real.sin_neg,
        Real.sin_pi_div_four]
    rw [if_neg abs_half_pi_not_lt_EPS,
        if_neg (show ¬ min |(1 : ℝ) * 1| |1 * 1| < EPS by norm_num [EPS]),
        if_neg (show ¬ ((0 : ℝ) = 0 ∧ -(Real.sqrt 2 / 2) = 0) by
          intro hc
          have h2 := sqrt_two_half_pos
          have h3 := hc.2
          linarith),
        if_neg (show ¬ ((0 : ℝ) * -(Real.sqrt 2 / 2) < 0) by
          rw [zero_mul]
          exact lt_irrefl 0)]
    simp

open Classical in
/-- Claim C3 (amended): `intersection` raises `ValueError('parallel')`
exactly when `|r12| < EPS` or either derived `|sin(r12) * cos(lat)|`
term is below `EPS`; it raises `ValueError('infinite')` exactly when
(not parallel and) the sines of both wrapped bearing offsets are zero
— in particular when both offsets are exactly zero, but also when an
offset equals `pi`; it raises `ValueError('ambiguous')` exactly when
(not parallel or infinite and) the product of the sines of the two
offsets is strictly negative — for offsets inside `(-pi, pi)` that is
"strictly opposite non-zero signs", but an offset of exactly `pi`
(sine zero) does not trigger it; otherwise it returns exactly one
point, projected via `_destination2` from `start1` along `bearing1`
with the average of the two start heights. -/
theorem intersection_cases (s1 s2 : LatLon) (β1 β2 : ℝ) :
    let a1 := radians s1.lat
    let a2 := radians s2.lat
    let b1 := radians s1.lon
    let b2 := radians s2.lon
    let r12 := (haversine3 a2 a1 (b2 - b1)).1
    let x1 := sin r12 * cos a1
    let x2 := sin r12 * cos a2
    let par : Prop := |r12| < EPS ∨ min |x1| |x2| < EPS
    let t1 := arccos ((sin a2 - sin a1 * cos r12) / x1)
    let t2 := arccos ((sin a1 - sin a2 * cos r12) / x2)
    let tt := bearings12 t1 t2 (sin (b2 - b1))
    let X1 := wrapPI (radians β1 - tt.1)
    let X2 := wrapPI (tt.2 - radians β2)
    let inf : Prop := sin X1 = 0 ∧ sin X2 = 0
    let amb : Prop := sin X1 * sin X2 < 0
    (intersection s1 β1 s2 β2 = .error .parallel ↔ par)
    ∧ (intersection s1 β1 s2 β2 = .error .infiniteInter ↔ ¬ par ∧ inf)
    ∧ (intersection s1 β1 s2 β2 = .error .ambiguous ↔ ¬ par ∧ ¬ inf ∧ amb)
    ∧ ((¬ par ∧ ¬ inf ∧ ¬ amb) ↔
        intersection s1 β1 s2 β2 =
          .ok (destination2 a1 b1
                 (atan2 (sin r12 * (sin X1 * sin X2))
                    (cos X2 + cos X1 *
                       cos (arccos (cos r12 * (sin X1 * sin X2) -
                              cos X2 * cos X1))))
                 (radians β1) (favg s1.height s2.height (1 / 2)))) := by
  dsimp only
  unfold intersection
  dsimp only
  set r12 := (haversine3 (radians s2.lat) (radians s1.lat)
      (radians s2.lon - radians s1.lon)).1 with hr12
  set x1 := sin r12 * cos (radians s1.lat) with hx1
  set x2 := sin r12 * cos (radians s2.lat) with hx2
  set t1 := arccos ((sin (radians s2.lat) -
      sin (radians s1.lat) * cos r12) / x1) with ht1
  set t2 := arccos ((sin (radians s1.lat) -
      sin (radians s2.lat) * cos r12) / x2) with ht2
  set tt := bearings12 t1 t2
      (sin (radians s2.lon - radians s1.lon)) with htt
  set X1 := wrapPI (radians β1 - tt.1) with hX1
  set X2 := wrapPI (tt.2 - radians β2) with hX2
  by_cases hp1 : |r12| < EPS
  · rw [if_pos hp1]
    exact ⟨⟨fun _ => Or.inl hp1, fun _ => rfl⟩,
           ⟨fun he => absurd he (by simp), fun hc => absurd (Or.inl hp1) hc.1⟩,
           ⟨fun he => absurd he (by simp), fun hc => absurd (Or.inl hp1) hc.1⟩,
           ⟨fun hc => absurd (Or.inl hp1) hc.1, fun he => absurd he (by simp)⟩⟩
  · rw [if_neg hp1]
    by_cases hp2 : min |x1| |x2| < EPS
    · rw [if_pos hp2]
      exact ⟨⟨fun _ => Or.inr hp2, fun _ => rfl⟩,
             ⟨fun he => absurd he (by simp),
              fun hc => absurd (Or.inr hp2) hc.1⟩,
             ⟨fun he => absurd he (by simp),
              fun hc => absurd (Or.inr hp2) hc.1⟩,
             ⟨fun hc => absurd (Or.inr hp2) hc.1,
              fun he => absurd he (by simp)⟩⟩
    · have hnp : ¬ (|r12| < EPS ∨ min |x1| |x2| < EPS) :=
        fun hor => hor.elim hp1 hp2
      rw [if_neg hp2]
      by_cases hinf : sin X1 = 0 ∧ sin X2 = 0
      · rw [if_pos hinf]
        exact ⟨⟨fun he => absurd he (by simp), fun hpar => absurd hpar hnp⟩,
               ⟨fun _ => ⟨hnp, hinf⟩, fun _ => rfl⟩,
               ⟨fun he => absurd he (by simp), fun hc => absurd hinf hc.2.1⟩,
               ⟨fun hc => absurd hinf hc.2.1, fun he => absurd he (by simp)⟩⟩
      · rw [if_neg hinf]
        by_cases hamb : sin X1 * sin X2 < 0
        · rw [if_pos hamb]
          exact ⟨⟨fun he => absurd he (by simp),
                  fun hpar => absurd hpar hnp⟩,
                 ⟨fun he => absurd he (by simp),
                  fun hc => absurd hc.2 hinf⟩,
                 ⟨fun _ => ⟨hnp, hinf, hamb⟩, fun _ => rfl⟩,
                 ⟨fun hc => absurd hamb hc.2.2,
                  fun he => absurd he (by simp)⟩⟩
        · rw [if_neg hamb]
          exact ⟨⟨fun he => absurd he (by simp),
                  fun hpar => absurd hpar hnp⟩,
                 ⟨fun he => absurd he (by simp),
                  fun hc => absurd hc.2 hinf⟩,
                 ⟨fun he => absurd he (by simp),
                  fun hc => absurd hc.2.2 hamb⟩,
                 ⟨fun _ => rfl, fun _ => ⟨hnp, hinf, hamb⟩⟩⟩

end PyGeodesy
